import Mathlib

/-!
Verification of the geometric containment/intersection/transform engine of a
nested-2D-shape editor (`src/main.ts`).

Embedding conventions:
* JavaScript `number` (IEEE double) is abstracted as `ℚ`, so arithmetic is
  exact.  The one place where float semantics are load-bearing is division by
  zero in `line_intersects`: in JS it yields `NaN`/`±Infinity`, on which every
  range comparison evaluates to `false`; the embedding makes that explicit with
  a zero-denominator test.
* `Math.cos` / `Math.sin` applied to `(Math.PI / 180) * angle` are abstracted
  as two function parameters `C S : ℚ → ℚ` giving the cosine and sine of an
  angle stated in degrees.  The code never relies on concrete trigonometric
  values except at angle `0`, where concrete scenarios instantiate
  `C 0 = 1`, `S 0 = 0`.
* Methods that mutate (`rotateAround`, `draw` writing `drawPoints`,
  `Controller.translate` writing `transform`) are embedded as pure functions
  returning the updated value; object identity used by the sibling filter
  `node !== this` is modelled by an `id : ℕ` field on shape data.
-/

/-- 2D point, from `class Point` (`main.ts`). -/
structure Point where
  x : ℚ
  y : ℚ
deriving DecidableEq, Repr

def Point.zero : Point := ⟨0, 0⟩

def Point.unit : Point := ⟨1, 1⟩

/-- `Point.rotateAround(center, angle)` (`main.ts` lines 44-52).  The source
computes `radians = (Math.PI/180) * angle`, `cos = Math.cos(radians)`,
`sin = Math.sin(radians)`; here `C angle` and `S angle` stand for those two
values.  `nx = cos*(x-cx) + sin*(y-cy) + cx`,
`ny = cos*(y-cy) - sin*(x-cx) + cy`. -/
def Point.rotateAround (C S : ℚ → ℚ) (p center : Point) (angle : ℚ) : Point :=
  let c := C angle
  let s := S angle
  let result : Point :=
    ⟨c * (p.x - center.x) + s * (p.y - center.y) + center.x,
     c * (p.y - center.y) - s * (p.x - center.x) + center.y⟩
  result

/-- `class Transform` (`main.ts` lines 60-84): position offset, rotation in
degrees, non-uniform scale. -/
structure Transform where
  position : Point
  rotation : ℚ
  scale : Point
deriving DecidableEq, Repr

/-- `Transform.default` (`main.ts` line 65). -/
def Transform.default : Transform := ⟨Point.zero, 0, Point.unit⟩

/-- `Transform.zero` (`main.ts` line 66). -/
def Transform.zero : Transform := ⟨Point.zero, 0, Point.zero⟩

/-- `Transform.add(other)` (`main.ts` lines 68-77): builds a fresh
`Transform` whose position sums the positions, whose rotation sums the
rotations and whose scale multiplies the scales componentwise; neither
operand is written to (the source only reads both and calls the
constructor), which the pure embedding reflects. -/
def Transform.add (t other : Transform) : Transform :=
  ⟨⟨t.position.x + other.position.x, t.position.y + other.position.y⟩,
   t.rotation + other.rotation,
   ⟨t.scale.x * other.scale.x, t.scale.y * other.scale.y⟩⟩

/-- `interface Line` (`main.ts`). -/
structure Line where
  point1 : Point
  point2 : Point
deriving DecidableEq, Repr

/-- The shared denominator `(-s2_x * s1_y + s1_x * s2_y)` of the two
intersection parameters in `line_intersects`. -/
def lineDenom (line1 line2 : Line) : ℚ :=
  let s1x := line1.point2.x - line1.point1.x
  let s1y := line1.point2.y - line1.point1.y
  let s2x := line2.point2.x - line2.point1.x
  let s2y := line2.point2.y - line2.point1.y
  let d := -s2x * s1y + s1x * s2y
  d

/-- The intersection parameter `s` computed by `line_intersects`
(`main.ts` lines 7-10); division is rational, meaningful when the
denominator is nonzero. -/
def sParam (line1 line2 : Line) : ℚ :=
  let s1x := line1.point2.x - line1.point1.x
  let s1y := line1.point2.y - line1.point1.y
  let num := -s1y * (line1.point1.x - line2.point1.x) +
    s1x * (line1.point1.y - line2.point1.y)
  num / lineDenom line1 line2

/-- The intersection parameter `t` computed by `line_intersects`
(`main.ts` lines 11-14). -/
def tParam (line1 line2 : Line) : ℚ :=
  let s2x := line2.point2.x - line2.point1.x
  let s2y := line2.point2.y - line2.point1.y
  let num := s2x * (line1.point1.y - line2.point1.y) -
    s2y * (line1.point1.x - line2.point1.x)
  num / lineDenom line1 line2

/-- `line_intersects(line1, line2)` (`main.ts` lines 1-17): returns
`s >= 0 && s <= 1 && t >= 0 && t <= 1`.  When the common denominator is
zero, JS float division produces `NaN` or `±Infinity` and the four range
comparisons cannot all hold, so the function returns `false`; the embedding
states that case explicitly. -/
def line_intersects (line1 line2 : Line) : Bool :=
  if lineDenom line1 line2 = 0 then false
  else
    let s := sParam line1 line2
    let t := tParam line1 line2
    decide (0 ≤ s) && decide (s ≤ 1) && decide (0 ≤ t) && decide (t ≤ 1)

/-- The ray-casting point-in-polygon loop of `NGon.isPointInside`
(`main.ts` lines 238-258), over an explicit list of (absolute) points.
The C-style loop `for (i = 0, j = n - 1; i < n; j = i++)` is embedded as a
fold carrying the pair `(inside, j)`: `j` starts at `n - 1` and is set to
the previous `i` after each step.  The division `(xj-xi)*(y-yi)/(yj-yi)`
only influences the result when `yi > y != yj > y`, which forces
`yj ≠ yi`, so total rational division is faithful. -/
def isPointInsidePts (pts : List Point) (q : Point) : Bool :=
  let n := pts.length
  ((List.range n).foldl (fun st i =>
    let inside := st.1
    let j := st.2
    let xi := (pts.getD i Point.zero).x
    let yi := (pts.getD i Point.zero).y
    let xj := (pts.getD j Point.zero).x
    let yj := (pts.getD j Point.zero).y
    let intersect := (decide (yi > q.y) != decide (yj > q.y)) &&
      decide (q.x < (xj - xi) * (q.y - yi) / (yj - yi) + xi)
    let next : Bool × ℕ := ((if intersect then !inside else inside), i)
    next) ((false : Bool), n - 1)).1

/-- The closed edge loop built by `NGon.isIntersecting` (`main.ts`
lines 265-278): edge `i` joins point `i` to point `(i+1) % n`, so the last
edge wraps from the final point back to the first. -/
def edgesOf (pts : List Point) : List Line :=
  (List.range pts.length).map (fun i =>
    ⟨pts.getD i Point.zero, pts.getD ((i + 1) % pts.length) Point.zero⟩)

/-- `NGon.isIntersecting` (`main.ts` lines 260-287) on two resolved point
lists: some edge of the first polygon intersects some edge of the second.
The early-`return true` double loop is embedded as `List.any`. -/
def isIntersectingPts (a b : List Point) : Bool :=
  (edgesOf a).any (fun la => (edgesOf b).any (fun lb => line_intersects la lb))

/-- `enum ShapeType` (`main.ts` lines 19-24). -/
inductive ShapeKind where
  | canvas
  | rectangle
  | circle
  | triangle
deriving DecidableEq, Repr

/-- The state of one `NGon` node: its kind, an `id` modelling JS object
identity (used by the sibling filter `node !== this`), its local `transform`,
its local `points` (set once by the subclass constructor) and its cached
absolute `drawPoints` (empty at construction, `main.ts` line 136, rewritten by
every `draw` pass). -/
structure ShapeData where
  kind : ShapeKind
  id : ℕ
  transform : Transform
  points : List Point
  drawPoints : List Point
deriving DecidableEq, Repr

/-- The shape tree: a node's data together with its `children` list.  The
`parent` back-reference of the source is implicit in the tree structure. -/
inductive ShapeTree where
  | mk (data : ShapeData) (children : List ShapeTree)

def ShapeTree.data : ShapeTree → ShapeData
  | .mk d _ => d

def ShapeTree.children : ShapeTree → List ShapeTree
  | .mk _ c => c

/-- The four local points built by the `Rectangle` constructor
(`main.ts` lines 295-309). -/
def rectanglePoints (width height : ℚ) : List Point :=
  let hWidth := width / 2
  let hHeight := height / 2
  [⟨-hWidth, hHeight⟩, ⟨hWidth, hHeight⟩, ⟨hWidth, -hHeight⟩, ⟨-hWidth, -hHeight⟩]

/-- `new Rectangle(width, height, transform, parent)`: local points from
`rectanglePoints`, `drawPoints = []` (set by the `NGon` constructor). -/
def mkRectangle (id : ℕ) (width height : ℚ) (transform : Transform) : ShapeData :=
  ⟨.rectangle, id, transform, rectanglePoints width height, []⟩

/-- `Circle.pointsAmount` (`main.ts` line 328). -/
def circlePointsAmount : ℕ := 100

/-- The 100 local points built by the `Circle` constructor (`main.ts`
lines 329-340).  `cosSample i` and `sinSample i` stand for
`Math.cos(i * 2π/100)` and `Math.sin(i * 2π/100)`. -/
def circlePoints (cosSample sinSample : ℕ → ℚ) (radius : ℚ) : List Point :=
  (List.range circlePointsAmount).map (fun i =>
    ⟨cosSample i * radius, sinSample i * radius⟩)

/-- `new Circle(radius, transform, parent)`. -/
def mkCircle (id : ℕ) (cosSample sinSample : ℕ → ℚ) (radius : ℚ)
    (transform : Transform) : ShapeData :=
  ⟨.circle, id, transform, circlePoints cosSample sinSample radius, []⟩

/-- `new Triangle(point1, point2, point3, transform, parent)`
(`main.ts` lines 356-365). -/
def mkTriangle (id : ℕ) (point1 point2 point3 : Point) (transform : Transform) :
    ShapeData :=
  ⟨.triangle, id, transform, [point1, point2, point3], []⟩

/-- `new Canvas(width, height, transform)` (`main.ts` lines 402-404): a
`Rectangle` with no parent and kind `Canvas`. -/
def mkCanvas (id : ℕ) (width height : ℚ) (transform : Transform) : ShapeData :=
  ⟨.canvas, id, transform, rectanglePoints width height, []⟩

/-- `NGon.getCenter` (`main.ts` lines 159-172): `reduce` over `drawPoints`
from `(0,0)`, adding `curr/points.length` componentwise, i.e. the centroid. -/
def getCenter (pts : List Point) : Point :=
  pts.foldl (fun prev curr =>
    ⟨prev.x + curr.x / (pts.length : ℚ), prev.y + curr.y / (pts.length : ℚ)⟩)
    ⟨0, 0⟩

/-- The `absoluteTransform` built at the top of `NGon.draw`
(`main.ts` lines 185-195): position `parentCenter + T.position`, rotation
`parentT.rotation + T.rotation`, scale `parentT.scale * T.scale`
componentwise. -/
def absoluteTransformOf (T : Transform) (parentCenter : Point)
    (parentT : Transform) : Transform :=
  ⟨⟨parentCenter.x + T.position.x, parentCenter.y + T.position.y⟩,
   parentT.rotation + T.rotation,
   ⟨parentT.scale.x * T.scale.x, parentT.scale.y * T.scale.y⟩⟩

/-- The `this.drawPoints = this.points.map(...)` step of `NGon.draw`
(`main.ts` lines 196-212): each local point is scaled by
`absoluteTransform.scale`, offset by `parentCenter + T.position`, rotated
around `absoluteTransform.position` by `T.rotation`, then rotated around
`parentCenter` by `parentT.rotation`. -/
def drawPointsOf (C S : ℚ → ℚ) (points : List Point) (T : Transform)
    (parentCenter : Point) (parentT : Transform) : List Point :=
  let absoluteTransform := absoluteTransformOf T parentCenter parentT
  points.map (fun point =>
    let drawPoint : Point :=
      ⟨parentCenter.x + T.position.x + point.x * absoluteTransform.scale.x,
       parentCenter.y + T.position.y + point.y * absoluteTransform.scale.y⟩
    let r1 := drawPoint.rotateAround C S
      ⟨absoluteTransform.position.x, absoluteTransform.position.y⟩ T.rotation
    r1.rotateAround C S parentCenter parentT.rotation)

mutual
/-- `NGon.draw(ctx, parentCenter, parentTransform)` (`main.ts`
lines 174-232), with the canvas-context drawing stripped (it only sets stroke
colors): recompute `drawPoints`, then draw every child with
`parentCenter := this.getCenter()` (the node's own centroid, computed from the
freshly assigned `drawPoints`) and `parentTransform := absoluteTransform`. -/
def ShapeTree.draw (C S : ℚ → ℚ) (t : ShapeTree) (parentCenter : Point)
    (parentT : Transform) : ShapeTree :=
  match t with
  | .mk data children =>
    let absoluteTransform := absoluteTransformOf data.transform parentCenter parentT
    let dps := drawPointsOf C S data.points data.transform parentCenter parentT
    let center := getCenter dps
    .mk { data with drawPoints := dps } (drawList C S children center absoluteTransform)

/-- `this.children.forEach((child) => child.draw(ctx, this.getCenter(), absoluteTransform))`. -/
def drawList (C S : ℚ → ℚ) (l : List ShapeTree) (parentCenter : Point)
    (parentT : Transform) : List ShapeTree :=
  match l with
  | [] => []
  | c :: cs => c.draw C S parentCenter parentT :: drawList C S cs parentCenter parentT
end

/-- `NGon.isStable` (`main.ts` lines 139-157), with the node's parent
represented by the parent's resolved `drawPoints` and the parent's
`children` list (the node included): every draw point of the node must be
inside the parent polygon, and for every sibling (children of the parent
whose identity differs from the node's) no node point is inside the sibling,
no sibling point is inside the node, and the two edge loops do not
intersect. -/
def ngonIsStable (self : ShapeData) (parentPts : List Point)
    (parentChildren : List ShapeData) : Bool :=
  self.drawPoints.all (fun point => isPointInsidePts parentPts point) &&
  (parentChildren.filter (fun node => node.id ≠ self.id)).all (fun sibling =>
    self.drawPoints.all (fun point => !isPointInsidePts sibling.drawPoints point) &&
    sibling.drawPoints.all (fun point => !isPointInsidePts self.drawPoints point) &&
    !isIntersectingPts self.drawPoints sibling.drawPoints)

/-- Dynamic dispatch of `isStable`: `Canvas.isStable` (`main.ts`
lines 398-400) overrides the `NGon` version and returns `true`
unconditionally; every other kind runs `NGon.isStable`. -/
def ShapeData.isStable (self : ShapeData) (parentPts : List Point)
    (parentChildren : List ShapeData) : Bool :=
  match self.kind with
  | .canvas => true
  | _ => ngonIsStable self parentPts parentChildren

mutual
/-- Subtree lookup along a path of child indices (`[]` is the node itself). -/
def ShapeTree.getAt (t : ShapeTree) (path : List ℕ) : Option ShapeTree :=
  match path with
  | [] => some t
  | i :: rest =>
    match t with
    | .mk _ children => getAtList children i rest

def getAtList (l : List ShapeTree) (i : ℕ) (rest : List ℕ) : Option ShapeTree :=
  match l, i with
  | [], _ => none
  | c :: _, 0 => c.getAt rest
  | _ :: cs, n + 1 => getAtList cs n rest
end

mutual
/-- Replace the transform of the node at `path` by `f` of it, leaving
everything else (points, drawPoints, other nodes) unchanged; this models an
assignment to `node.transform`. -/
def ShapeTree.updateAt (t : ShapeTree) (path : List ℕ) (f : Transform → Transform) :
    ShapeTree :=
  match path with
  | [] =>
    match t with
    | .mk d children => .mk { d with transform := f d.transform } children
  | i :: rest =>
    match t with
    | .mk d children => .mk d (updateAtList children i rest f)

def updateAtList (l : List ShapeTree) (i : ℕ) (rest : List ℕ)
    (f : Transform → Transform) : List ShapeTree :=
  match l, i with
  | [], _ => []
  | c :: cs, 0 => c.updateAt rest f :: cs
  | c :: cs, n + 1 => c :: updateAtList cs n rest f
end

/-- `isStable` of the node addressed by `path` in the tree rooted at `root`:
the root itself dispatches with no parent (only reachable for the `Canvas`,
whose override ignores the parent); any deeper node is checked against the
`drawPoints` and children of the node at `path.dropLast`, mirroring
`this.parent` / `this.parent.children` in the source. -/
def stableAt (root : ShapeTree) (path : List ℕ) : Bool :=
  match path.getLast? with
  | none => root.data.isStable ([] : List Point) ([] : List ShapeData)
  | some i =>
    match root.getAt path.dropLast with
    | none => false
    | some parent =>
      match parent.children.get? i with
      | none => false
      | some node =>
        node.data.isStable parent.data.drawPoints (parent.children.map ShapeTree.data)

/-- The state of `Controller` that `translate` touches: the root canvas tree
and the selected node, addressed by its path from the root (`[]` selects the
canvas itself). -/
structure ControllerState where
  canvas : ShapeTree
  selectedPath : List ℕ

/-- The transform of the node at `path`, when the path is valid. -/
def transformAt (t : ShapeTree) (path : List ℕ) : Option Transform :=
  (t.getAt path).map (fun s => s.data.transform)

/-- `Controller.translate(translate)` (`main.ts` lines 814-827): a no-op
returning `false` when the selected node is the `Canvas`; otherwise the
selected node's transform becomes `transform.add(translate)`, the whole tree
is re-rendered (`render` calls `canvas.draw(ctx, Point.zero,
Transform.default)`, recomputing every `drawPoints`), and the node's
stability is checked.  If stable the new transform is kept and `true` is
returned; otherwise only the transform is reset to its prior value (no second
render happens before returning) and `false` is returned. -/
def Controller.translate (C S : ℚ → ℚ) (st : ControllerState) (delta : Transform) :
    Bool × ControllerState :=
  if st.selectedPath = [] then (false, st)
  else
    let prevTransform := (transformAt st.canvas st.selectedPath).getD Transform.default
    let applied := st.canvas.updateAt st.selectedPath (fun T => T.add delta)
    let rendered := applied.draw C S Point.zero Transform.default
    if stableAt rendered st.selectedPath then
      (true, { st with canvas := rendered })
    else
      (false, { st with canvas := rendered.updateAt st.selectedPath (fun _ => prevTransform) })

/-- `NGon.isIntersecting` at the shape level: both operands here are polygon
shapes (every concrete shape in the source is an `NGon`, so the
`throw "Not implemented"` branch for non-`NGon` operands is unreachable), and
the test runs over the two resolved `drawPoints` lists. -/
def ShapeData.isIntersecting (a b : ShapeData) : Bool :=
  isIntersectingPts a.drawPoints b.drawPoints

/-- Modelled from the spec's wording (§4.3): the absolute draw point of a
local point `p` is `parentCenter + T.position + (p * combinedScale)` with
`combinedScale = parentT.scale * T.scale` componentwise, rotated around
`(parentCenter + T.position)` by `T.rotation`, then rotated around
`parentCenter` by `parentT.rotation`.  To be compared with the source-derived
`drawPointsOf`. -/
def specAbsolutePoint (C S : ℚ → ℚ) (p : Point) (T : Transform)
    (parentCenter : Point) (parentT : Transform) : Point :=
  let combinedScale : Point := ⟨parentT.scale.x * T.scale.x, parentT.scale.y * T.scale.y⟩
  let base : Point := ⟨parentCenter.x + T.position.x + p.x * combinedScale.x,
                       parentCenter.y + T.position.y + p.y * combinedScale.y⟩
  let r1 := base.rotateAround C S
    ⟨parentCenter.x + T.position.x, parentCenter.y + T.position.y⟩ T.rotation
  r1.rotateAround C S parentCenter parentT.rotation

/-- Modelled from the spec's wording (§4.4): ray casting where the edge at
index `i` is paired with `j = i - 1 mod n`, the `inside` flag is toggled
exactly when `(yi>y) != (yj>y) && x < (xj-xi)*(y-yi)/(yj-yi) + xi` holds, and
the final flag is returned.  To be compared with the source-derived
`isPointInsidePts`. -/
def specIsPointInside (pts : List Point) (q : Point) : Bool :=
  let n := pts.length
  (List.range n).foldl (fun inside i =>
    let j := (i + n - 1) % n
    let xi := (pts.getD i Point.zero).x
    let yi := (pts.getD i Point.zero).y
    let xj := (pts.getD j Point.zero).x
    let yj := (pts.getD j Point.zero).y
    let intersect := (decide (yi > q.y) != decide (yj > q.y)) &&
      decide (q.x < (xj - xi) * (q.y - yi) / (yj - yi) + xi)
    let next := if intersect then !inside else inside
    next) false

/-- Cosine abstraction valid for scenarios whose every rotation is `0`:
`Math.cos(0) = 1`. -/
def constOne : ℚ → ℚ := fun _ => 1

/-- Sine abstraction valid for scenarios whose every rotation is `0`:
`Math.sin(0) = 0`. -/
def constZero : ℚ → ℚ := fun _ => 0

/-- The spec's "legal child" scenario: a 640×480 `Canvas` whose transform
position is its center `(320,240)` (as built by the `Controller` constructor,
`main.ts` lines 733-737), with one `Rectangle` 100×50 child at local
transform position `(0,0)`, zero rotation, unit scale. -/
def legalScene : ShapeTree :=
  ShapeTree.mk (mkCanvas 0 640 480 ⟨⟨320, 240⟩, 0, Point.unit⟩)
    [ShapeTree.mk (mkRectangle 1 100 50 Transform.default) []]

/-- `legalScene` after a top-down render pass
(`canvas.draw(ctx, Point.zero, Transform.default)`). -/
def legalDrawn (C S : ℚ → ℚ) : ShapeTree :=
  legalScene.draw C S Point.zero Transform.default

/-- Controller state with the rectangle child of `legalScene` selected,
after the initial render. -/
def legalState : ControllerState := ⟨legalDrawn constOne constZero, [0]⟩

/-- A translation pushing the rectangle past the canvas's right edge
(the spec's "out-of-bounds child" scenario position `(400,0)`). -/
def outOfBoundsDelta : Transform := ⟨⟨400, 0⟩, 0, Point.unit⟩

/-- A small translation keeping the rectangle inside the canvas. -/
def smallDelta : Transform := ⟨⟨10, 0⟩, 0, Point.unit⟩

/-- One iteration of the ray-casting loop body shared (up to definitional
unfolding) by `isPointInsidePts` and `specIsPointInside`: the edge test for
indices `(i, j)` and the conditional toggle of the `inside` flag. -/
def raycastStep (pts : List Point) (q : Point) (inside : Bool) (j i : ℕ) : Bool :=
  let xi := (pts.getD i Point.zero).x
  let yi := (pts.getD i Point.zero).y
  let xj := (pts.getD j Point.zero).x
  let yj := (pts.getD j Point.zero).y
  let intersect := (decide (yi > q.y) != decide (yj > q.y)) &&
    decide (q.x < (xj - xi) * (q.y - yi) / (yj - yi) + xi)
  let next := if intersect then !inside else inside
  next

/-! ### Supporting lemmas -/

theorem isPointInsidePts_nil (q : Point) : isPointInsidePts [] q = false := rfl

theorem isIntersectingPts_nil_left (b : List Point) :
    isIntersectingPts [] b = false := rfl

/-- `line_intersects` in closed form over the denominator and the two
intersection parameters. -/
theorem line_intersects_eq (line1 line2 : Line) :
    line_intersects line1 line2 =
      (decide (lineDenom line1 line2 ≠ 0) && decide (0 ≤ sParam line1 line2) &&
       decide (sParam line1 line2 ≤ 1) && decide (0 ≤ tParam line1 line2) &&
       decide (tParam line1 line2 ≤ 1)) := by
  by_cases h : lineDenom line1 line2 = 0 <;> simp [line_intersects, h]

theorem lineDenom_swap (line1 line2 : Line) :
    lineDenom line2 line1 = -lineDenom line1 line2 := by
  simp only [lineDenom]
  ring

theorem sParam_swap (line1 line2 : Line) :
    sParam line2 line1 = tParam line1 line2 := by
  simp only [sParam, tParam, lineDenom]
  rw [← neg_div_neg_eq]
  congr 1 <;> ring

theorem tParam_swap (line1 line2 : Line) :
    tParam line2 line1 = sParam line1 line2 := by
  simp only [sParam, tParam, lineDenom]
  rw [← neg_div_neg_eq]
  congr 1 <;> ring

theorem line_intersects_comm (line1 line2 : Line) :
    line_intersects line1 line2 = line_intersects line2 line1 := by
  rw [line_intersects_eq, line_intersects_eq, lineDenom_swap line1 line2,
    sParam_swap line1 line2, tParam_swap line1 line2]
  simp only [neg_ne_zero]
  cases h0 : decide (lineDenom line1 line2 ≠ 0) <;>
    cases h1 : decide (0 ≤ sParam line1 line2) <;>
    cases h2 : decide (sParam line1 line2 ≤ 1) <;>
    cases h3 : decide (0 ≤ tParam line1 line2) <;>
    cases h4 : decide (tParam line1 line2 ≤ 1) <;> rfl

theorem list_any_congr {α : Type} {l : List α} {p q : α → Bool}
    (h : ∀ x ∈ l, p x = q x) : l.any p = l.any q := by
  induction l with
  | nil => rfl
  | cons x xs ih =>
    simp only [List.any_cons, h x (by simp), ih (fun y hy => h y (by simp [hy]))]

theorem list_any_any_comm {α β : Type} (l1 : List α) (l2 : List β)
    (f : α → β → Bool) :
    (l1.any fun a => l2.any fun b => f a b) =
      (l2.any fun b => l1.any fun a => f a b) := by
  rw [Bool.eq_iff_iff]
  simp only [List.any_eq_true]
  tauto

/-! ### Claim theorems -/

/-- C4: `line_intersects` computes the intersection parameters `s` and `t` by
the cross-product parametrization over the shared denominator and returns
`true` exactly when the denominator is nonzero and both parameters lie in
`[0,1]`; a zero denominator (parallel segments) always yields `false`, and in
particular the exactly-collinear overlapping pair `(0,0)-(2,2)` and
`(1,1)-(3,3)` yields `false`. -/
theorem segment_intersection_rule :
    (∀ line1 line2 : Line,
      line_intersects line1 line2 =
        (decide (lineDenom line1 line2 ≠ 0) && decide (0 ≤ sParam line1 line2) &&
         decide (sParam line1 line2 ≤ 1) && decide (0 ≤ tParam line1 line2) &&
         decide (tParam line1 line2 ≤ 1))) ∧
    line_intersects ⟨⟨0, 0⟩, ⟨2, 2⟩⟩ ⟨⟨1, 1⟩, ⟨3, 3⟩⟩ = false := by
  refine ⟨line_intersects_eq, ?_⟩
  norm_num [line_intersects, lineDenom]

/-- C8: `Transform.add` returns the transform with summed positions, summed
(unnormalized) rotations and componentwise-multiplied scales; the rotation sum
can exceed 360 or go negative.  The source builds a fresh `Transform` and
never writes to either operand, which the pure embedding reflects. -/
theorem transform_add_rule :
    (∀ a b : Transform,
      Transform.add a b =
        ⟨⟨a.position.x + b.position.x, a.position.y + b.position.y⟩,
         a.rotation + b.rotation,
         ⟨a.scale.x * b.scale.x, a.scale.y * b.scale.y⟩⟩) ∧
    (Transform.add ⟨Point.zero, 300, Point.unit⟩ ⟨Point.zero, 100, Point.unit⟩).rotation > 360 ∧
    (Transform.add ⟨Point.zero, -10, Point.unit⟩ ⟨Point.zero, -20, Point.unit⟩).rotation < 0 := by
  refine ⟨fun a b => rfl, ?_, ?_⟩ <;> norm_num [Transform.add]

/-- C10: a non-Canvas node whose `drawPoints` were never resolved (the empty
list left by the `NGon` constructor) is reported stable whatever the parent
polygon and the siblings are: the containment loop and the node-in-sibling
loop range over no points, `isPointInside` of an empty polygon is `false` so
the sibling-in-node loop never fires, and an empty polygon contributes no
edges to the intersection test. -/
theorem empty_drawPoints_always_stable (self : ShapeData) (parentPts : List Point)
    (parentChildren : List ShapeData) (hdraw : self.drawPoints = [])
    (hkind : self.kind ≠ ShapeKind.canvas) :
    ShapeData.isStable self parentPts parentChildren = true := by
  obtain ⟨k, id, tr, pts, dps⟩ := self
  simp only at hdraw hkind
  subst hdraw
  cases k with
  | canvas => exact absurd rfl hkind
  | rectangle =>
    simp [ShapeData.isStable, ngonIsStable, isPointInsidePts_nil, isIntersectingPts_nil_left]
  | circle =>
    simp [ShapeData.isStable, ngonIsStable, isPointInsidePts_nil, isIntersectingPts_nil_left]
  | triangle =>
    simp [ShapeData.isStable, ngonIsStable, isPointInsidePts_nil, isIntersectingPts_nil_left]

/-- Witness for C10 at a concrete unresolved rectangle with a parent far away
and a sibling polygon that would certainly overlap it if its points were
resolved. -/
theorem empty_drawPoints_always_stable_witness :
    ShapeData.isStable ⟨ShapeKind.rectangle, 5, Transform.default, rectanglePoints 10 10, []⟩
      [⟨1000, 1000⟩, ⟨1001, 1000⟩, ⟨1000, 1001⟩]
      [⟨ShapeKind.rectangle, 6, Transform.default, [], [⟨0, 0⟩, ⟨1, 0⟩, ⟨0, 1⟩]⟩] = true :=
  empty_drawPoints_always_stable _ _ _ rfl (by simp)

theorem isStable_canvas (self : ShapeData) (parentPts : List Point)
    (parentChildren : List ShapeData) (h : self.kind = ShapeKind.canvas) :
    ShapeData.isStable self parentPts parentChildren = true := by
  obtain ⟨k, id, tr, pts, dps⟩ := self
  simp only at h
  subst h
  rfl

theorem isStable_of_ne_canvas (self : ShapeData) (parentPts : List Point)
    (parentChildren : List ShapeData) (h : self.kind ≠ ShapeKind.canvas) :
    ShapeData.isStable self parentPts parentChildren =
      ngonIsStable self parentPts parentChildren := by
  obtain ⟨k, id, tr, pts, dps⟩ := self
  simp only at h
  cases k with
  | canvas => exact absurd rfl h
  | rectangle => rfl
  | circle => rfl
  | triangle => rfl

theorem ngonIsStable_iff (self : ShapeData) (parentPts : List Point)
    (parentChildren : List ShapeData) :
    ngonIsStable self parentPts parentChildren = true ↔
      ((∀ p ∈ self.drawPoints, isPointInsidePts parentPts p = true) ∧
       ∀ s ∈ parentChildren, s.id ≠ self.id →
         (∀ p ∈ self.drawPoints, isPointInsidePts s.drawPoints p = false) ∧
         (∀ p ∈ s.drawPoints, isPointInsidePts self.drawPoints p = false) ∧
         isIntersectingPts self.drawPoints s.drawPoints = false) := by
  simp only [ngonIsStable, Bool.and_eq_true, List.all_eq_true, List.mem_filter,
    Bool.not_eq_true', decide_eq_true_eq, ne_eq, and_imp]
  constructor
  · rintro ⟨h1, h2⟩
    refine ⟨h1, fun s hs hne => ?_⟩
    rcases h2 s hs hne with ⟨⟨a, b⟩, c⟩
    exact ⟨a, b, c⟩
  · rintro ⟨h1, h2⟩
    refine ⟨h1, fun s hs hne => ?_⟩
    rcases h2 s hs hne with ⟨a, b, c⟩
    exact ⟨⟨a, b⟩, c⟩

/-- C1: for a non-Canvas node, `isStable` returns `true` exactly when every
draw point of the node is inside the parent polygon and, for every sibling
(another child of the same parent, distinguished by object identity), no draw
point of the node is inside the sibling, no draw point of the sibling is
inside the node, and the two edge loops do not intersect; for a Canvas node
`isStable` is unconditionally `true` (covered by the left disjunct). -/
theorem stability_rule (self : ShapeData) (parentPts : List Point)
    (parentChildren : List ShapeData) :
    ShapeData.isStable self parentPts parentChildren = true ↔
      (self.kind = ShapeKind.canvas ∨
        ((∀ p ∈ self.drawPoints, isPointInsidePts parentPts p = true) ∧
         ∀ s ∈ parentChildren, s.id ≠ self.id →
           (∀ p ∈ self.drawPoints, isPointInsidePts s.drawPoints p = false) ∧
           (∀ p ∈ s.drawPoints, isPointInsidePts self.drawPoints p = false) ∧
           isIntersectingPts self.drawPoints s.drawPoints = false)) := by
  by_cases hk : self.kind = ShapeKind.canvas
  · simp [isStable_canvas self parentPts parentChildren hk, hk]
  · rw [isStable_of_ne_canvas self parentPts parentChildren hk, ngonIsStable_iff]
    simp [hk]

/-- Closed instance of C1 at the Canvas kind. -/
theorem stability_rule_witness :
    ShapeData.isStable ⟨ShapeKind.canvas, 0, Transform.default, [], []⟩ [] [] = true :=
  (stability_rule _ _ _).mpr (Or.inl rfl)

/-- C6: polygon-polygon edge intersection is symmetric over the resolved
draw points of any two polygon shapes. -/
theorem intersection_symmetric (a b : ShapeData) :
    ShapeData.isIntersecting a b = ShapeData.isIntersecting b a := by
  unfold ShapeData.isIntersecting isIntersectingPts
  rw [list_any_any_comm]
  exact list_any_congr (fun lb _ => list_any_congr (fun la _ => line_intersects_comm la lb))

theorem drawList_eq_map (C S : ℚ → ℚ) (l : List ShapeTree) (pc : Point) (pT : Transform) :
    drawList C S l pc pT = l.map (fun c => c.draw C S pc pT) := by
  induction l with
  | nil => simp [drawList]
  | cons c cs ih => simp [drawList, ih]

theorem drawPointsOf_eq_spec (C S : ℚ → ℚ) (pts : List Point) (T : Transform)
    (pc : Point) (pT : Transform) :
    drawPointsOf C S pts T pc pT = pts.map (fun p => specAbsolutePoint C S p T pc pT) := rfl

/-- C2: (a) one `draw` step resolves every draw point by the spec's formula —
scale the local point by the combined scale `parentT.scale * T.scale`, offset
by `parentCenter + T.position`, rotate around `parentCenter + T.position` by
`T.rotation`, rotate around `parentCenter` by `parentT.rotation` — and
recurses into the children with the node's own centroid (`getCenter` of the
fresh draw points) as the position fed down plus the accumulated transform;
(b) the position component of the accumulated parent transform is ignored by
`draw`, so the only position information a child receives is the parent's
centroid, never its transform position. -/
theorem draw_transform_chain :
    (∀ (C S : ℚ → ℚ) (data : ShapeData) (children : List ShapeTree)
       (parentCenter : Point) (parentT : Transform),
      ShapeTree.draw C S (ShapeTree.mk data children) parentCenter parentT =
        ShapeTree.mk
          { data with
              drawPoints := data.points.map
                (fun p => specAbsolutePoint C S p data.transform parentCenter parentT) }
          (children.map
            (fun c => c.draw C S
              (getCenter (data.points.map
                (fun p => specAbsolutePoint C S p data.transform parentCenter parentT)))
              (absoluteTransformOf data.transform parentCenter parentT)))) ∧
    (∀ (C S : ℚ → ℚ) (t : ShapeTree) (parentCenter pos1 pos2 : Point)
       (rot : ℚ) (sc : Point),
      t.draw C S parentCenter ⟨pos1, rot, sc⟩ = t.draw C S parentCenter ⟨pos2, rot, sc⟩) := by
  constructor
  · intro C S data children parentCenter parentT
    simp [ShapeTree.draw, drawPointsOf_eq_spec, drawList_eq_map]
  · intro C S t parentCenter pos1 pos2 rot sc
    cases t with
    | mk d c =>
      simp only [ShapeTree.draw, drawPointsOf, absoluteTransformOf]

theorem foldl_carry (step : Bool → ℕ → ℕ → Bool) :
    ∀ (c s : ℕ) (b : Bool),
      ((List.range' (s + 1) c).foldl (fun st i => ((step st.1 st.2 i : Bool), i)) (b, s)).1
        = (List.range' (s + 1) c).foldl (fun b' i => step b' (i - 1) i) b := by
  intro c
  induction c with
  | zero => intro s b; rfl
  | succ n ih =>
    intro s b
    rw [List.range'_succ]
    simp only [List.foldl_cons, Nat.add_sub_cancel]
    exact ih (s + 1) (step b s (s + 1))

/-- C5: the point-in-polygon test is the ray-casting crossing-number loop the
spec describes: iterating edges `(i, j = i-1 mod n)` over the draw points as
a closed loop, the inside flag is toggled exactly when
`(yi>y) != (yj>y) && x < (xj-xi)*(y-yi)/(yj-yi) + xi` holds, and the final
flag is returned.  The source's carried-index loop (`j` starts at `n-1` and
trails `i`) coincides with the spec's `j = i-1 mod n` indexing. -/
theorem raycast_rule (pts : List Point) (q : Point) :
    isPointInsidePts pts q = specIsPointInside pts q := by
  rcases hn : pts.length with _ | m
  · have hpts : pts = [] := List.length_eq_zero.mp hn
    subst hpts
    rfl
  · have lhs_eq : isPointInsidePts pts q =
        ((List.range pts.length).foldl
          (fun st i => ((raycastStep pts q st.1 st.2 i : Bool), i))
          ((false : Bool), pts.length - 1)).1 := rfl
    have rhs_eq : specIsPointInside pts q =
        (List.range pts.length).foldl
          (fun b i => raycastStep pts q b ((i + pts.length - 1) % pts.length) i) false := rfl
    rw [lhs_eq, rhs_eq, hn]
    have hsplit : List.range (m + 1) = 0 :: List.range' 1 m := by
      rw [List.range_eq_range']
      simpa using List.range'_succ 0 m 1
    rw [hsplit]
    simp only [List.foldl_cons, Nat.add_sub_cancel, Nat.zero_add]
    have h0 : m % (m + 1) = m := Nat.mod_eq_of_lt (Nat.lt_succ_self m)
    rw [h0]
    have hc := foldl_carry (raycastStep pts q) m 0 (raycastStep pts q false m 0)
    simp only [Nat.zero_add] at hc
    rw [hc]
    refine List.foldl_ext _ _ _ (fun b i hi => ?_)
    have hmem : 1 ≤ i ∧ i < 1 + m := by
      rw [List.mem_range'] at hi
      obtain ⟨k, hk, rfl⟩ := hi
      omega
    have harith : i + (m + 1) - 1 = (i - 1) + (m + 1) := by omega
    rw [harith, Nat.add_mod_right, Nat.mod_eq_of_lt (by omega)]

theorem transformAt_updateAt (path : List ℕ) :
    ∀ (t : ShapeTree) (f : Transform → Transform),
      transformAt (t.updateAt path f) path = (transformAt t path).map f := by
  induction path with
  | nil =>
    intro t f
    cases t with
    | mk d c => simp [transformAt, ShapeTree.updateAt, ShapeTree.getAt, ShapeTree.data]
  | cons i rest ih =>
    intro t f
    cases t with
    | mk d c =>
      simp only [transformAt, ShapeTree.updateAt, ShapeTree.getAt]
      induction c generalizing i with
      | nil => simp [updateAtList, getAtList]
      | cons x xs ihl =>
        cases i with
        | zero => simpa [updateAtList, getAtList, transformAt] using ih x f
        | succ n => simpa [updateAtList, getAtList] using ihl n

theorem transformAt_draw (path : List ℕ) :
    ∀ (C S : ℚ → ℚ) (t : ShapeTree) (pc : Point) (pT : Transform),
      transformAt (t.draw C S pc pT) path = transformAt t path := by
  induction path with
  | nil =>
    intro C S t pc pT
    cases t with
    | mk d c => simp [transformAt, ShapeTree.draw, ShapeTree.getAt, ShapeTree.data]
  | cons i rest ih =>
    intro C S t pc pT
    cases t with
    | mk d c =>
      simp only [transformAt, ShapeTree.draw, ShapeTree.getAt]
      induction c generalizing i with
      | nil => simp [drawList, getAtList]
      | cons x xs ihl =>
        cases i with
        | zero => simpa [drawList, getAtList, transformAt] using ih C S x _ _
        | succ n => simpa [drawList, getAtList] using ihl n

/-- C3 (amended): for a non-Canvas selected node, `Controller.translate`
applies the composed transform speculatively, re-renders the tree and checks
stability.  Its boolean result equals the stability of the selected node in
the re-rendered tree; on success the state keeps the re-rendered tree with
the composed transform; on rejection the node's transform is restored to
exactly its prior value.  (The rest of the tree state is *not* restored on
rejection: the drawPoints caches keep the speculatively rendered values, see
the counterexample.) -/
theorem translate_speculative_rule (C S : ℚ → ℚ) (st : ControllerState)
    (delta : Transform) (tau : Transform)
    (hsel : st.selectedPath ≠ [])
    (htau : transformAt st.canvas st.selectedPath = some tau) :
    (Controller.translate C S st delta).1 =
      stableAt ((st.canvas.updateAt st.selectedPath
        (fun T => T.add delta)).draw C S Point.zero Transform.default) st.selectedPath ∧
    ((Controller.translate C S st delta).1 = true →
      (Controller.translate C S st delta).2.canvas =
        (st.canvas.updateAt st.selectedPath
          (fun T => T.add delta)).draw C S Point.zero Transform.default ∧
      transformAt (Controller.translate C S st delta).2.canvas st.selectedPath =
        some (tau.add delta)) ∧
    ((Controller.translate C S st delta).1 = false →
      transformAt (Controller.translate C S st delta).2.canvas st.selectedPath =
        some tau) := by
  have hprev : (transformAt st.canvas st.selectedPath).getD Transform.default = tau := by
    rw [htau]
    rfl
  have htr : transformAt ((st.canvas.updateAt st.selectedPath
      (fun T => T.add delta)).draw C S Point.zero Transform.default) st.selectedPath =
      some (tau.add delta) := by
    rw [transformAt_draw, transformAt_updateAt, htau]
    rfl
  by_cases hstab : stableAt ((st.canvas.updateAt st.selectedPath
      (fun T => T.add delta)).draw C S Point.zero Transform.default) st.selectedPath
  · refine ⟨?_, fun _ => ⟨?_, ?_⟩, fun hfalse => ?_⟩
    · simp [Controller.translate, hsel, hstab]
    · simp [Controller.translate, hsel, hstab]
    · simp [Controller.translate, hsel, hstab, htr]
    · simp [Controller.translate, hsel, hstab] at hfalse
  · have hstab' : stableAt ((st.canvas.updateAt st.selectedPath
        (fun T => T.add delta)).draw C S Point.zero Transform.default) st.selectedPath = false :=
      Bool.not_eq_true _ ▸ (by simpa using hstab)
    refine ⟨?_, fun htrue => ?_, fun _ => ?_⟩
    · simp [Controller.translate, hsel, hstab']
    · simp [Controller.translate, hsel, hstab'] at htrue
    · simp [Controller.translate, hsel, hstab', transformAt_updateAt, htr, hprev]

/-- Closed instance of C3 (amended) at the legal scene with a small in-bounds
translation of the selected rectangle. -/
theorem translate_speculative_rule_witness :
    (Controller.translate constOne constZero legalState smallDelta).1 =
      stableAt ((legalState.canvas.updateAt legalState.selectedPath
        (fun T => T.add smallDelta)).draw constOne constZero Point.zero Transform.default)
        legalState.selectedPath ∧
    ((Controller.translate constOne constZero legalState smallDelta).1 = true →
      (Controller.translate constOne constZero legalState smallDelta).2.canvas =
        (legalState.canvas.updateAt legalState.selectedPath
          (fun T => T.add smallDelta)).draw constOne constZero Point.zero Transform.default ∧
      transformAt (Controller.translate constOne constZero legalState smallDelta).2.canvas
        legalState.selectedPath = some (Transform.default.add smallDelta)) ∧
    ((Controller.translate constOne constZero legalState smallDelta).1 = false →
      transformAt (Controller.translate constOne constZero legalState smallDelta).2.canvas
        legalState.selectedPath = some Transform.default) :=
  translate_speculative_rule constOne constZero legalState smallDelta Transform.default
    (by simp [legalState])
    (by
      show transformAt (legalDrawn constOne constZero) [0] = some Transform.default
      rw [legalDrawn, transformAt_draw]
      rfl)

/-- Counterexample to C3 as stated: pushing the legal scene's rectangle out
of bounds is rejected (`false` is returned and the transform is restored
exactly), but the state is *not* unchanged — the rectangle's `drawPoints`
cache still holds the speculatively rendered out-of-bounds points, because
the source re-renders before the stability check and does not render again
after reverting the transform. -/
theorem translate_rejection_stale_cache :
    (Controller.translate constOne constZero legalState outOfBoundsDelta).1 = false ∧
    transformAt (Controller.translate constOne constZero legalState outOfBoundsDelta).2.canvas
      [0] = some Transform.default ∧
    ((Controller.translate constOne constZero legalState outOfBoundsDelta).2.canvas.getAt
        [0]).map (fun s => s.data.drawPoints) ≠
      (legalState.canvas.getAt [0]).map (fun s => s.data.drawPoints) := by
  refine ⟨?_, ?_, ?_⟩ <;>
  norm_num [Controller.translate, legalState, legalDrawn, legalScene, smallDelta,
    outOfBoundsDelta, stableAt, ShapeTree.draw, drawList, ShapeTree.updateAt, updateAtList,
    transformAt, Transform.add, ShapeData.isStable, ngonIsStable, isPointInsidePts,
    isIntersectingPts, edgesOf, line_intersects, lineDenom, sParam, tParam, mkCanvas,
    mkRectangle, rectanglePoints, getCenter, drawPointsOf, absoluteTransformOf,
    Point.rotateAround, Transform.default, Point.zero, Point.unit, ShapeTree.getAt,
    getAtList, ShapeTree.data, ShapeTree.children, List.range_succ, List.filter, List.all,
    List.foldl, constOne, constZero]

/-- C7: in the concrete scenario — 640×480 Canvas whose transform position is
its center `(320,240)`, with a 100×50 Rectangle child at local position
`(0,0)`, zero rotation and unit scale, resolved top-down from the canvas —
all four corners of the rectangle are inside the canvas polygon and the
rectangle is stable.  `C`/`S` are any cosine/sine abstractions correct at the
only angle used, `0`. -/
theorem legal_child_scenario (C S : ℚ → ℚ) (hC : C 0 = 1) (hS : S 0 = 0) :
    ((legalDrawn C S).getAt [0]).map
        (fun nd => nd.data.drawPoints.all
          (fun p => isPointInsidePts (legalDrawn C S).data.drawPoints p)) = some true ∧
    stableAt (legalDrawn C S) [0] = true := by
  constructor <;>
  norm_num [legalDrawn, legalScene, stableAt, ShapeTree.draw, drawList,
    ShapeData.isStable, ngonIsStable, isPointInsidePts, isIntersectingPts, edgesOf,
    line_intersects, lineDenom, sParam, tParam, mkCanvas, mkRectangle, rectanglePoints,
    getCenter, drawPointsOf, absoluteTransformOf, Point.rotateAround, Transform.default,
    Point.zero, Point.unit, ShapeTree.getAt, getAtList, ShapeTree.data, ShapeTree.children,
    List.range_succ, List.filter, List.all, List.foldl, hC, hS]

/-- Closed instance of C7 with the constant trig abstractions. -/
theorem legal_child_scenario_witness :
    ((legalDrawn constOne constZero).getAt [0]).map
        (fun nd => nd.data.drawPoints.all
          (fun p => isPointInsidePts (legalDrawn constOne constZero).data.drawPoints p)) =
      some true ∧
    stableAt (legalDrawn constOne constZero) [0] = true :=
  legal_child_scenario constOne constZero rfl rfl

/-- Counterexample to C9 as stated: immediately after construction (one point
of the shape's lifetime) a Rectangle has `drawPoints = []` while its local
point list has 4 entries, so `drawPoints.length == points.length` fails
before the first draw pass. -/
theorem fresh_rectangle_violates_length_invariant :
    ¬ ((mkRectangle 1 100 50 Transform.default).drawPoints.length =
       (mkRectangle 1 100 50 Transform.default).points.length) := by
  simp [mkRectangle, rectanglePoints]

/-- C9 (amended): at construction every shape's `drawPoints` is empty while
the local point lists have 4 (Rectangle, Canvas), 100 (Circle) and 3
(Triangle) entries — all at least 3; after any draw pass `drawPoints` has
exactly the length of the unchanged local point list; and the edge loop of a
polygon pairs point `i` with point `(i+1) mod n`, so both lists are treated
as closed polygons with an implicit edge from the last point back to the
first. -/
theorem length_invariant_after_draw :
    (∀ (id : ℕ) (w h : ℚ) (T : Transform),
      (mkRectangle id w h T).drawPoints = [] ∧ (mkRectangle id w h T).points.length = 4) ∧
    (∀ (id : ℕ) (cs sn : ℕ → ℚ) (r : ℚ) (T : Transform),
      (mkCircle id cs sn r T).drawPoints = [] ∧ (mkCircle id cs sn r T).points.length = 100) ∧
    (∀ (id : ℕ) (p1 p2 p3 : Point) (T : Transform),
      (mkTriangle id p1 p2 p3 T).drawPoints = [] ∧
      (mkTriangle id p1 p2 p3 T).points.length = 3) ∧
    (∀ (id : ℕ) (w h : ℚ) (T : Transform),
      (mkCanvas id w h T).drawPoints = [] ∧ (mkCanvas id w h T).points.length = 4) ∧
    (∀ (C S : ℚ → ℚ) (t : ShapeTree) (pc : Point) (pT : Transform),
      ((t.draw C S pc pT).data.drawPoints).length = (t.draw C S pc pT).data.points.length ∧
      (t.draw C S pc pT).data.points = t.data.points) ∧
    (∀ pts : List Point, (edgesOf pts).length = pts.length ∧
      ∀ i, i < pts.length →
        (edgesOf pts).getD i ⟨Point.zero, Point.zero⟩ =
          ⟨pts.getD i Point.zero, pts.getD ((i + 1) % pts.length) Point.zero⟩) := by
  refine ⟨?_, ?_, ?_, ?_, ?_, ?_⟩
  · intro id w h T
    exact ⟨rfl, by simp [mkRectangle, rectanglePoints]⟩
  · intro id cs sn r T
    exact ⟨rfl, by simp [mkCircle, circlePoints, circlePointsAmount]⟩
  · intro id p1 p2 p3 T
    exact ⟨rfl, by simp [mkTriangle]⟩
  · intro id w h T
    exact ⟨rfl, by simp [mkCanvas, rectanglePoints]⟩
  · intro C S t pc pT
    cases t with
    | mk d c =>
      exact ⟨by simp [ShapeTree.draw, ShapeTree.data, drawPointsOf, absoluteTransformOf],
        by simp [ShapeTree.draw, ShapeTree.data]⟩
  · intro pts
    refine ⟨by simp [edgesOf], fun i hi => ?_⟩
    simp [edgesOf, List.getD_eq_getElem?_getD, List.getElem?_map, List.getElem?_range hi]

/-- Closed instance of C9 (amended): the last edge of a concrete triangle
wraps from its last point back to its first. -/
theorem length_invariant_after_draw_witness :
    (edgesOf [⟨0, 0⟩, ⟨1, 0⟩, ⟨0, 1⟩]).getD 2 ⟨Point.zero, Point.zero⟩ =
      ⟨([(⟨0, 0⟩ : Point), ⟨1, 0⟩, ⟨0, 1⟩]).getD 2 Point.zero,
       ([(⟨0, 0⟩ : Point), ⟨1, 0⟩, ⟨0, 1⟩]).getD ((2 + 1) % 3) Point.zero⟩ :=
  (length_invariant_after_draw.2.2.2.2.2 _).2 2 (by norm_num)
